import Mathlib

/-!
Verification of the generic credential lookup engine and the GitLab
access-check / scope-validation layer of the service-provider-integration
operator.

The Go source is shallowly embedded: pure functions become Lean functions;
the object store (the Kubernetes client) becomes an explicit `Client` value
holding the listed resources; external collaborators (the token filter, the
metadata cache, token storage, the URL parser of `net/url`, the HTTP client)
become function- or value-fields of the environment structures, exactly as
they are fields/collaborators of `GenericLookup` and `Gitlab` in the source.
The concurrent per-candidate evaluation of `Lookup` is determinized into a
sequential traversal of the candidate list: the Go code spawns one goroutine
per ready candidate and appends matches/errors under one mutex in completion
order, which the spec leaves unspecified; the sequential traversal is one
admissible completion order and preserves the multiset of matches and errors.
-/

namespace SPI

/-- Model of Go `error` values as they are built in the sources:
`msg` is a sentinel made by `errors.New`, or an opaque collaborator error;
`wrap` is `fmt.Errorf("<context>: %w", cause)`;
`wrapDetail` is `fmt.Errorf("%w: '%s'", cause, detail)` (also the `%w: %d`
shape used with a status code);
`aggregate` is `kubeerrors.NewAggregate` applied to a non-empty error list. -/
inductive GoError where
  | msg (s : String)
  | wrap (context : String) (cause : GoError)
  | wrapDetail (cause : GoError) (detail : String)
  | aggregate (errs : List GoError)
deriving Repr

/-- `var missingTargetError = errors.New(...)` in lookup.go. -/
def missingTargetError : GoError :=
  .msg "found RemoteSecret does not have a target in the SPIAccessCheck's namespace, this should not happen"

/-- `var accessTokenNotFoundError = errors.New(...)` in lookup.go. -/
def accessTokenNotFoundError : GoError :=
  .msg "token data is not found in token storage"

/-- The `Host`/`Path` projection of Go's `*url.URL` that the lookup code uses. -/
structure URL where
  host : String
  path : String
deriving Repr, DecidableEq

/-- `api.ServiceProviderTypeLabel`: the label key selecting the provider type. -/
def ServiceProviderTypeLabel : String := "spi.appstudio.redhat.com/service-provider-type"

/-- `api.ServiceProviderHostLabel`: the label key selecting the provider host. -/
def ServiceProviderHostLabel : String := "spi.appstudio.redhat.com/service-provider-host"

/-- `api.RSServiceProviderHostLabel`: the host label key on RemoteSecrets. -/
def RSServiceProviderHostLabel : String := "appstudio.redhat.com/sp.host"

/-- `api.RSServiceProviderRepositoryAnnotation`: the repository-scope annotation key. -/
def RSServiceProviderRepositoryKey : String := "appstudio.redhat.com/sp.repository"

/-- `api.SPIAccessTokenPhaseReady`. -/
def SPIAccessTokenPhaseReady : String := "Ready"

/-- `v1.BasicAuthUsernameKey` of k8s.io/api/core/v1. -/
def BasicAuthUsernameKey : String := "username"

/-- `v1.BasicAuthPasswordKey` of k8s.io/api/core/v1. -/
def BasicAuthPasswordKey : String := "password"

/-- Lookup in a Go `map[string]string`, returning the zero value `""` for an
absent key (labels, annotations and `Secret.Data` reads in the source all go
through this). -/
def mapGetD (m : List (String × String)) (k : String) : String :=
  match m.find? (fun kv => kv.1 == k) with
  | some kv => kv.2
  | none => ""

/-- Membership of a key in a Go map modelled as an association list. -/
def mapHas (m : List (String × String)) (k : String) : Bool :=
  (m.find? (fun kv => kv.1 == k)).isSome

/-- The fields of `api.SPIAccessToken` read by the lookup engine: name,
namespace, labels and the status phase. -/
structure SPIAccessToken where
  name : String
  ns : String
  labels : List (String × String)
  phase : String
deriving Repr, DecidableEq

/-- `v1beta1.TargetStatus` of a RemoteSecret: the API URL, the delivery error,
the target namespace and the name of the delivered secret. -/
structure TargetStatus where
  apiUrl : String
  error : String
  ns : String
  secretName : String
deriving Repr, DecidableEq

/-- The fields of `v1beta1.RemoteSecret` read by the lookup engine. -/
structure RemoteSecret where
  name : String
  ns : String
  labels : List (String × String)
  annotations : List (String × String)
  targets : List TargetStatus
deriving Repr, DecidableEq

/-- The fields of `v1.Secret` read by the lookup engine. -/
structure Secret where
  name : String
  ns : String
  data : List (String × String)
deriving Repr, DecidableEq

/-- `api.Token` as returned by token storage: the secret material. -/
structure TokenData where
  username : String
  accessToken : String
deriving Repr, DecidableEq

/-- `serviceprovider.Credentials`: the terminal output of a lookup. -/
structure Credentials where
  username : String
  token : String
deriving Repr, DecidableEq

/-- The `Matchable` interface: repository URL and namespace of the requester. -/
structure Matchable where
  repoUrl : String
  objNamespace : String
deriving Repr, DecidableEq

/-- The object store visible to one lookup call: the `client.Client` is
consumed only as a list/get interface over these three collections. -/
structure Client where
  tokens : List SPIAccessToken
  remoteSecrets : List RemoteSecret
  secrets : List Secret

/-- `cl.List` over SPIAccessTokens with `client.InNamespace` and
`client.MatchingLabels`: keeps the tokens in the namespace whose labels map
contains every requested key/value pair. -/
def listTokens (cl : Client) (ns : String) (sel : List (String × String)) :
    List SPIAccessToken :=
  cl.tokens.filter (fun t =>
    t.ns == ns && sel.all (fun kv => mapHas t.labels kv.1 && mapGetD t.labels kv.1 == kv.2))

/-- `cl.List` over RemoteSecrets with namespace and label selectors. -/
def listRemoteSecrets (cl : Client) (ns : String) (sel : List (String × String)) :
    List RemoteSecret :=
  cl.remoteSecrets.filter (fun rs =>
    rs.ns == ns && sel.all (fun kv => mapHas rs.labels kv.1 && mapGetD rs.labels kv.1 == kv.2))

/-- `cl.Get` of a `v1.Secret` by namespace and name; a missing object is the
not-found error of the API server. -/
def getSecret (cl : Client) (ns name : String) : Except GoError Secret :=
  match cl.secrets.find? (fun s => s.ns == ns && s.name == name) with
  | some s => .ok s
  | none => .error (.msg ("secrets " ++ name ++ " not found"))

/-- The configuration of `GenericLookup`: the collaborators are function
fields, consumed exactly through the calls the source makes. `tokenFilter`
is `TokenFilter.Matches`, `metadataCacheEnsure` is `MetadataCache.Ensure`
with the configured `MetadataProvider` (returning `some e` on failure, `none`
on success, like a Go `error` result), `tokenStorageGet` is
`TokenStorage.Get` (which may return no data without error), and
`remoteSecretFilter` is the optional `RemoteSecretFilter`. -/
structure GenericLookup where
  serviceProviderType : String
  tokenFilter : Matchable → SPIAccessToken → Except GoError Bool
  metadataCacheEnsure : SPIAccessToken → Option GoError
  tokenStorageGet : SPIAccessToken → Except GoError (Option TokenData)
  remoteSecretFilter : Option (Matchable → RemoteSecret → Bool)
  repoUrlParser : String → Except GoError URL

/-- Whether the character list `sub` occurs as a contiguous sublist of `l`:
the test `strings.Index(s, sub) == -1` of the source is `false` exactly when
this holds on the underlying character lists. -/
def listContainsSublist (sub : List Char) : List Char → Bool
  | [] => sub.isEmpty
  | c :: rest => sub.isPrefixOf (c :: rest) || listContainsSublist sub rest

/-- `strings.Index(s, sub) != -1`. -/
def stringsContains (s sub : String) : Bool :=
  listContainsSublist sub.toList s.toList

/-- `strings.TrimPrefix(s, pre)`: removes `pre` from the front of `s` when
present, otherwise returns `s` unchanged. -/
def stringsTrimPfx (s pre : String) : String :=
  if pre.toList.isPrefixOf s.toList then String.mk (s.toList.drop pre.toList.length) else s

/-- Splits a character list at every comma, accumulating the current entry in
reverse: the recursion underlying `strings.Split(s, ",")`. -/
def splitCommaAux : List Char → List Char → List String
  | [], acc => [String.mk acc.reverse]
  | c :: rest, acc =>
    if c == ',' then String.mk acc.reverse :: splitCommaAux rest []
    else splitCommaAux rest (c :: acc)

/-- `commaseparated.Value(s).Values()`: the comma-separated entries of the
annotation value, as `strings.Split(s, ",")` produces them. -/
def commaseparatedValues (s : String) : List String :=
  splitCommaAux s.toList []

/-- `RepoUrlFromString`: parse with `net/url` (the abstract `parse`
collaborator) and wrap a failure as `invalid url: %w`. -/
def RepoUrlFromString (parse : String → Except GoError URL) (repoUrl : String) :
    Except GoError URL :=
  match parse repoUrl with
  | .error e => .error (.wrap "invalid url" e)
  | .ok u => .ok u

/-- `RepoUrlFromSchemalessString`: prepend `https://` when the string has no
`://`, then delegate to `RepoUrlFromString`. -/
def RepoUrlFromSchemalessString (parse : String → Except GoError URL) (repoUrl : String) :
    Except GoError URL :=
  if stringsContains repoUrl "://" then
    RepoUrlFromString parse repoUrl
  else
    RepoUrlFromString parse ("https://" ++ repoUrl)

/-- The body of one concurrent task of `Lookup` for a ready candidate:
ensure the metadata, then evaluate the token filter; the first failure is the
task's error. -/
def evalCandidate (l : GenericLookup) (m : Matchable) (t : SPIAccessToken) :
    Except GoError Bool :=
  match l.metadataCacheEnsure t with
  | some e => .error e
  | none => l.tokenFilter m t

/-- The accumulation loop of `Lookup` over the listed candidates: non-ready
candidates are skipped; for every ready candidate the task either appends its
error to the error list or, on a positive match, appends the token to the
result list. Returns (result, errs). -/
def lookupEval (l : GenericLookup) (m : Matchable) :
    List SPIAccessToken → List SPIAccessToken × List GoError
  | [] => ([], [])
  | t :: rest =>
    if t.phase == SPIAccessTokenPhaseReady then
      match evalCandidate l m t with
      | .error e => ((lookupEval l m rest).1, e :: (lookupEval l m rest).2)
      | .ok true => (t :: (lookupEval l m rest).1, (lookupEval l m rest).2)
      | .ok false => lookupEval l m rest
    else lookupEval l m rest

/-- `GenericLookup.Lookup`: parse the repo URL, list candidate tokens by
provider-type and host labels in the matchable's namespace, evaluate every
ready candidate, and fail with one aggregated error when any task failed. -/
def GenericLookup.Lookup (l : GenericLookup) (cl : Client) (m : Matchable) :
    Except GoError (List SPIAccessToken) :=
  match l.repoUrlParser m.repoUrl with
  | .error e => .error (.wrap ("error parsing the host from repo URL " ++ m.repoUrl) e)
  | .ok repoUrl =>
    let potentialMatches := listTokens cl m.objNamespace
      [(ServiceProviderTypeLabel, l.serviceProviderType),
       (ServiceProviderHostLabel, repoUrl.host)]
    let res := lookupEval l m potentialMatches
    if res.2.isEmpty then
      .ok res.1
    else
      .error (.wrap "errors while examining the potential matches" (.aggregate res.2))

/-- `GenericLookup.PersistMetadata`: delegates to `MetadataCache.Ensure`. -/
def GenericLookup.PersistMetadata (l : GenericLookup) (t : SPIAccessToken) :
    Option GoError :=
  l.metadataCacheEnsure t

/-- `GenericLookup.lookupRemoteSecrets`: parse the repo URL, list RemoteSecrets
by the host label in the matchable's namespace, and keep those accepted by the
optional remote-secret filter (all of them when no filter is configured). -/
def GenericLookup.lookupRemoteSecrets (l : GenericLookup) (cl : Client) (m : Matchable) :
    Except GoError (List RemoteSecret) :=
  match l.repoUrlParser m.repoUrl with
  | .error e => .error (.wrap ("error parsing the repo URL " ++ m.repoUrl) e)
  | .ok repoUrl =>
    let potentialMatches := listRemoteSecrets cl m.objNamespace
      [(RSServiceProviderHostLabel, repoUrl.host)]
    .ok (potentialMatches.filter (fun rs =>
      match l.remoteSecretFilter with
      | none => true
      | some f => f m rs))

/-- Whether the repository-scope annotation of `rs` (a comma-separated list of
paths) contains `repoPath` with a leading `/` stripped: the loop condition of
`lookupRemoteSecretSecret`. -/
def remoteSecretScopeMatches (rs : RemoteSecret) (repoPath : String) : Bool :=
  (commaseparatedValues (mapGetD rs.annotations RSServiceProviderRepositoryKey)).contains
    (stringsTrimPfx repoPath "/")

/-- The selection loop of `lookupRemoteSecretSecret`: starting from the first
filtered match as the default, take the first remote secret whose scope
annotation contains the request's path, breaking out at the first hit. -/
def chooseMatchingRemoteSecret (repoPath : String) (dflt : RemoteSecret) :
    List RemoteSecret → RemoteSecret
  | [] => dflt
  | rs :: rest =>
    if remoteSecretScopeMatches rs repoPath then rs
    else chooseMatchingRemoteSecret repoPath dflt rest

/-- `getLocalNamespaceTargetIndex`: the index of the first target with empty
API URL, empty error and the given namespace; `-1` when none exists. -/
def getLocalNamespaceTargetIndex : List TargetStatus → String → Int
  | [], _ => -1
  | t :: rest, ns =>
    if t.apiUrl == "" && t.error == "" && t.ns == ns then 0
    else
      let r := getLocalNamespaceTargetIndex rest ns
      if r == -1 then -1 else r + 1

instance : Inhabited TargetStatus := ⟨⟨"", "", "", ""⟩⟩

/-- `GenericLookup.lookupRemoteSecretSecret`: with no matches, an absent
result; otherwise choose a remote secret (scope-annotation preference, first
match as default), resolve its local-namespace target, and get the delivered
secret, failing with `missingTargetError` when no local target exists. -/
def GenericLookup.lookupRemoteSecretSecret (l : GenericLookup) (cl : Client)
    (m : Matchable) (remoteSecrets : List RemoteSecret) :
    Except GoError (Option Secret) :=
  match remoteSecrets with
  | [] => .ok none
  | first :: _ =>
    match l.repoUrlParser m.repoUrl with
    | .error e => .error (.wrap ("error parsing the repo URL " ++ m.repoUrl) e)
    | .ok repoUrl =>
      let matchingRemoteSecret := chooseMatchingRemoteSecret repoUrl.path first remoteSecrets
      let targetIndex := getLocalNamespaceTargetIndex matchingRemoteSecret.targets m.objNamespace
      if targetIndex < 0 ∨ (matchingRemoteSecret.targets.length : Int) ≤ targetIndex then
        .error missingTargetError
      else
        match getSecret cl m.objNamespace
            (matchingRemoteSecret.targets.getD targetIndex.toNat default).secretName with
        | .error e => .error (.wrap "unable to find Secret created by RemoteSecret" e)
        | .ok secret => .ok (some secret)

/-- `GenericLookup.LookupCredentials`: tokens first; with at least one match,
credentials from the first matched token's stored data (failing with the
distinct not-found error when the payload is absent); with no token match,
fall back to the remote-secret path, building credentials from the basic-auth
keys of the delivered secret; `ok none` when neither source yields anything. -/
def GenericLookup.LookupCredentials (l : GenericLookup) (cl : Client) (m : Matchable) :
    Except GoError (Option Credentials) :=
  match l.Lookup cl m with
  | .error e => .error e
  | .ok tokens =>
    match tokens with
    | t :: _ =>
      match l.tokenStorageGet t with
      | .error e => .error (.wrap "failed to get token data" e)
      | .ok none => .error accessTokenNotFoundError
      | .ok (some tokenData) =>
        .ok (some ⟨tokenData.username, tokenData.accessToken⟩)
    | [] =>
      match l.lookupRemoteSecrets cl m with
      | .error e => .error e
      | .ok remoteSecrets =>
        match l.lookupRemoteSecretSecret cl m remoteSecrets with
        | .error e => .error e
        | .ok none => .ok none
        | .ok (some secret) =>
          .ok (some ⟨mapGetD secret.data BasicAuthUsernameKey,
                     mapGetD secret.data BasicAuthPasswordKey⟩)

/-! ### GitLab service provider: scope validation and repository access check -/

/-- `var unsupportedScopeError = errors.New(...)` in the GitLab provider. -/
def unsupportedScopeError : GoError := .msg "unsupported scope for GitLab"

/-- `var unsupportedAreaError = errors.New(...)` in the GitLab provider. -/
def unsupportedAreaError : GoError := .msg "unsupported permission area for GitLab"

/-- `var unsupportedUserWritePermissionError = errors.New(...)` in the GitLab provider. -/
def unsupportedUserWritePermissionError : GoError :=
  .msg "user write permission is not supported by GitLab"

/-- `var unexpectedStatusCodeError = errors.New(...)` in the GitLab provider. -/
def unexpectedStatusCodeError : GoError := .msg "unexpected status code from GitLab API"

/-- `api.PermissionAreaRepository`. -/
def PermissionAreaRepository : String := "repository"

/-- `api.PermissionAreaRepositoryMetadata`. -/
def PermissionAreaRepositoryMetadata : String := "repositoryMetadata"

/-- `api.PermissionAreaRegistry`. -/
def PermissionAreaRegistry : String := "registry"

/-- `api.PermissionAreaUser`. -/
def PermissionAreaUser : String := "user"

/-- `api.Permission`: an abstract (type, area) permission; both components are
string-backed types in the API. -/
structure Permission where
  type : String
  area : String
deriving Repr, DecidableEq

/-- `PermissionType.IsWrite()`: true for the write and read-write types. -/
def permissionTypeIsWrite (t : String) : Bool :=
  t == "rw" || t == "w"

/-- `api.Permissions`: required permissions plus free-form additional scopes. -/
structure Permissions where
  required : List Permission
  additionalScopes : List String
deriving Repr

/-- `serviceprovider.ValidationResult`: the collected scope-validation errors. -/
structure ValidationResult where
  scopeValidation : List GoError
deriving Repr

/-- The error appended by `Validate` for one required permission, when any:
known read-write areas pass, a write on the user area yields the distinct
user-write error, an unknown area yields the unsupported-area error. -/
def gitlabPermissionError (p : Permission) : Option GoError :=
  if p.area == PermissionAreaRepository
     || p.area == PermissionAreaRepositoryMetadata
     || p.area == PermissionAreaRegistry then
    none
  else if p.area == PermissionAreaUser then
    if permissionTypeIsWrite p.type then some unsupportedUserWritePermissionError else none
  else
    some (.wrapDetail unsupportedAreaError p.area)

/-- One iteration of the `Required` loop of `Validate`: append the error for
`p` to the accumulated `ScopeValidation` list, when there is one. -/
def appendPermissionError (acc : List GoError) (p : Permission) : List GoError :=
  match gitlabPermissionError p with
  | some e => acc ++ [e]
  | none => acc

/-- One iteration of the `AdditionalScopes` loop of `Validate`: append an
unsupported-scope error when the scope is not recognized. -/
def appendScopeError (isValidScope : String → Bool) (acc : List GoError) (s : String) :
    List GoError :=
  if isValidScope s then acc else acc ++ [.wrapDetail unsupportedScopeError s]

/-- `Gitlab.Validate`: iterate the required permissions appending the per-area
errors, then iterate the additional scopes appending an unsupported-scope
error for each scope the provider does not recognize. `isValidScope` stands
for the GitLab scope table consulted by `IsValidScope`. -/
def gitlabValidate (isValidScope : String → Bool) (perms : Permissions) : ValidationResult :=
  let afterAreas := perms.required.foldl appendPermissionError []
  let afterScopes := perms.additionalScopes.foldl (appendScopeError isValidScope) afterAreas
  ⟨afterScopes⟩

/-- `translateToGitlabScopes`: the fixed permission-to-scope table of the
GitLab provider. Scope names follow the GitLab OAuth scope identifiers. -/
def translateToGitlabScopes (p : Permission) : List String :=
  if p.area == PermissionAreaRepository || p.area == PermissionAreaRepositoryMetadata then
    if permissionTypeIsWrite p.type then ["write_repository"] else ["read_repository"]
  else if p.area == PermissionAreaRegistry then
    if permissionTypeIsWrite p.type then ["write_registry"] else ["read_registry"]
  else if p.area == PermissionAreaUser then
    ["read_user"]
  else
    []

/-- The HTTP status code of a response, the only field the access check reads. -/
structure HTTPResponse where
  statusCode : Nat
deriving Repr, DecidableEq

/-- `api.SPIAccessCheckAccessibility` values. -/
def SPIAccessCheckAccessibilityPublic : String := "public"

/-- Accessibility value for private repositories. -/
def SPIAccessCheckAccessibilityPrivate : String := "private"

/-- Accessibility value when the check could not classify the repository. -/
def SPIAccessCheckAccessibilityUnknown : String := "unknown"

/-- `api.SPIAccessCheckErrorReason` values used by the GitLab check. -/
def SPIAccessCheckErrorBadURL : String := "BadURL"

/-- Error reason when the credential lookup itself failed. -/
def SPIAccessCheckErrorTokenLookupFailed : String := "TokenLookupFailed"

/-- Error reason when the repository was not found. -/
def SPIAccessCheckErrorRepoNotFound : String := "RepoNotFound"

/-- Error reason for any other classification failure. -/
def SPIAccessCheckErrorUnknownError : String := "UnknownError"

/-- The fields of `api.SPIAccessCheckStatus` set by the GitLab check; every
construction site in the source sets `Type` to git and `ServiceProvider` to
GitLab, reproduced here as defaults. -/
structure SPIAccessCheckStatus where
  type : String := "git"
  serviceProvider : String := "GitLab"
  accessible : Bool := false
  accessibility : String := SPIAccessCheckAccessibilityUnknown
  errorReason : String := ""
  errorMessage : String := ""
deriving Repr, DecidableEq

/-- GitLab project visibility as reported by the API client. -/
def PrivateVisibility : String := "private"

/-- Visibility of internal projects, cloneable only by signed-in users. -/
def InternalVisibility : String := "internal"

/-- The outcome of `gitlabClient.Projects.GetProject`: a Go (value, response,
error) triple; `visibility` is the project's visibility on success. -/
structure GetProjectResult where
  err : Option GoError
  response : Option HTTPResponse
  visibility : String
deriving Repr

mutual

/-- Rendering of a `GoError` to the string stored in `ErrorMessage` by
`err.Error()`. The exact text of opaque collaborator errors is irrelevant to
the claims; this fixes one definite rendering. -/
def GoError.render : GoError → String
  | .msg s => s
  | .wrap context cause => context ++ ": " ++ cause.render
  | .wrapDetail cause detail => cause.render ++ ": '" ++ detail ++ "'"
  | .aggregate errs => String.intercalate ", " (GoError.renderList errs)

/-- Renders each error of an aggregate in turn. -/
def GoError.renderList : List GoError → List String
  | [] => []
  | e :: rest => e.render :: GoError.renderList rest

end

/-- The collaborators of one `Gitlab.CheckRepositoryAccess` call. The HTTP
probe, the owner/project URL matcher, the authenticated client builder and
the project query are external; each field records the outcome the
collaborator would produce for this call. `lookup` and `cl` feed the
`LookupCredentials` call of the private path. -/
structure GitlabCheckEnv where
  newRequestErr : Option GoError
  httpDo : Except GoError HTTPResponse
  parseOwnerAndProject : Except GoError (String × String)
  buildClientErr : Option GoError
  getProject : GetProjectResult
  lookup : GenericLookup
  cl : Client

/-- `Gitlab.checkPublicRepoAccess`: an unauthenticated GET of the repo URL;
200 means public, anything else (404 or an unexpected code, which is only
logged) means not public; only request-construction and transport failures
surface as errors. -/
def checkPublicRepoAccess (env : GitlabCheckEnv) (repoUrl : String) : Except GoError Bool :=
  match env.newRequestErr with
  | some e =>
    .error (.wrap ("error while constructing HTTP request for access check to " ++ repoUrl) e)
  | none =>
    match env.httpDo with
    | .error e =>
      .error (.wrap ("error performing HTTP request for access check to " ++ repoUrl) e)
    | .ok resp =>
      if resp.statusCode == 200 then .ok true else .ok false

/-- `Gitlab.checkPrivateRepoAccess`: parse owner/project, resolve credentials
through the lookup engine, build an authenticated client and query the
project; every failure is preserved as a reason+message on the status (the
function itself never returns a Go error). -/
def checkPrivateRepoAccess (env : GitlabCheckEnv) (m : Matchable) : SPIAccessCheckStatus :=
  let preserveError := fun (reason : String) (e : GoError) =>
    ({ errorReason := reason, errorMessage := e.render } : SPIAccessCheckStatus)
  match env.parseOwnerAndProject with
  | .error e => preserveError SPIAccessCheckErrorBadURL e
  | .ok _ =>
    match env.lookup.LookupCredentials env.cl m with
    | .error e => preserveError SPIAccessCheckErrorTokenLookupFailed e
    | .ok none => {}
    | .ok (some _) =>
      match env.buildClientErr with
      | some e => preserveError SPIAccessCheckErrorUnknownError e
      | none =>
        match env.getProject.err with
        | some e =>
          match env.getProject.response with
          | some resp =>
            if resp.statusCode == 404 then preserveError SPIAccessCheckErrorRepoNotFound e
            else preserveError SPIAccessCheckErrorUnknownError e
          | none => preserveError SPIAccessCheckErrorUnknownError e
        | none =>
          match env.getProject.response with
          | some resp =>
            if resp.statusCode != 200 then
              preserveError SPIAccessCheckErrorUnknownError
                (.wrapDetail unexpectedStatusCodeError (toString resp.statusCode))
            else
              if env.getProject.visibility == PrivateVisibility
                 || env.getProject.visibility == InternalVisibility then
                { accessible := true, accessibility := SPIAccessCheckAccessibilityPrivate }
              else
                { accessible := true }
          | none =>
            if env.getProject.visibility == PrivateVisibility
               || env.getProject.visibility == InternalVisibility then
              { accessible := true, accessibility := SPIAccessCheckAccessibilityPrivate }
            else
              { accessible := true }

/-- `Gitlab.CheckRepositoryAccess`: probe public access first; a public
repository is terminal (Accessible, Public), otherwise classification
continues with the private-repository path. -/
def checkRepositoryAccess (env : GitlabCheckEnv) (m : Matchable) :
    Except GoError SPIAccessCheckStatus :=
  match checkPublicRepoAccess env m.repoUrl with
  | .error e => .error e
  | .ok true =>
    .ok { accessible := true, accessibility := SPIAccessCheckAccessibilityPublic }
  | .ok false =>
    .ok (checkPrivateRepoAccess env m)

/-! ### Helper predicates and characterization lemmas -/

/-- The readiness guard of the candidate loop in `Lookup`. -/
def tokenReady (t : SPIAccessToken) : Bool :=
  t.phase == SPIAccessTokenPhaseReady

/-- Whether the per-candidate task of `Lookup` declares `t` a match. -/
def candidateMatched (l : GenericLookup) (m : Matchable) (t : SPIAccessToken) : Bool :=
  match evalCandidate l m t with
  | .ok b => b
  | .error _ => false

/-- The error, if any, produced by the per-candidate task of `Lookup` on `t`. -/
def candidateErr (l : GenericLookup) (m : Matchable) (t : SPIAccessToken) : Option GoError :=
  match evalCandidate l m t with
  | .ok _ => none
  | .error e => some e

/-- The candidate tokens listed by `Lookup` for `m` once the repo URL parsed
to `u`: namespace plus provider-type and host labels. -/
def lookupCandidates (l : GenericLookup) (cl : Client) (m : Matchable) (u : URL) :
    List SPIAccessToken :=
  listTokens cl m.objNamespace
    [(ServiceProviderTypeLabel, l.serviceProviderType),
     (ServiceProviderHostLabel, u.host)]

/-- The accumulation loop computes exactly the ready matches and the errors of
the ready failing candidates, in candidate order. -/
theorem lookupEval_eq (l : GenericLookup) (m : Matchable) (cs : List SPIAccessToken) :
    lookupEval l m cs =
      (cs.filter (fun t => tokenReady t && candidateMatched l m t),
       cs.filterMap (fun t => if tokenReady t then candidateErr l m t else none)) := by
  induction cs with
  | nil => rfl
  | cons t rest ih =>
    simp only [lookupEval, List.filter_cons, List.filterMap_cons]
    cases hr : (t.phase == SPIAccessTokenPhaseReady) with
    | false => simp [tokenReady, hr, ih]
    | true =>
      cases he : evalCandidate l m t with
      | error e => simp [tokenReady, candidateMatched, candidateErr, hr, he, ih]
      | ok b => cases b <;> simp [tokenReady, candidateMatched, candidateErr, hr, he, ih]

/-- The matching tokens accumulated by `Lookup` for parsed URL `u`. -/
def lookupMatches (l : GenericLookup) (cl : Client) (m : Matchable) (u : URL) :
    List SPIAccessToken :=
  (lookupCandidates l cl m u).filter (fun t => tokenReady t && candidateMatched l m t)

/-- The per-candidate errors accumulated by `Lookup` for parsed URL `u`. -/
def lookupErrs (l : GenericLookup) (cl : Client) (m : Matchable) (u : URL) :
    List GoError :=
  (lookupCandidates l cl m u).filterMap (fun t => if tokenReady t then candidateErr l m t else none)

/-- With a parsed URL and no per-candidate error, `Lookup` returns the
accumulated matches. -/
theorem lookup_ok_of_parse (l : GenericLookup) (cl : Client) (m : Matchable) (u : URL)
    (hparse : l.repoUrlParser m.repoUrl = .ok u)
    (herrs : lookupErrs l cl m u = []) :
    l.Lookup cl m = .ok (lookupMatches l cl m u) := by
  simp only [GenericLookup.Lookup, hparse, lookupEval_eq]
  simp only [lookupErrs, lookupCandidates] at herrs
  simp [herrs, lookupMatches, lookupCandidates]

/-- With a parsed URL and at least one per-candidate error, `Lookup` fails
with the wrapped aggregate of all accumulated errors. -/
theorem lookup_error_of_parse (l : GenericLookup) (cl : Client) (m : Matchable) (u : URL)
    (hparse : l.repoUrlParser m.repoUrl = .ok u)
    (herrs : lookupErrs l cl m u ≠ []) :
    l.Lookup cl m =
      .error (.wrap "errors while examining the potential matches"
        (.aggregate (lookupErrs l cl m u))) := by
  simp only [GenericLookup.Lookup, hparse, lookupEval_eq]
  simp only [lookupErrs, lookupCandidates] at herrs ⊢
  simp [List.isEmpty_iff, herrs]

/-- Inserting a non-ready token anywhere among the candidates leaves the
accumulated matches and errors untouched: the loop skips it. -/
theorem lookupEval_skip_not_ready (l : GenericLookup) (m : Matchable)
    (t0 : SPIAccessToken) (h : tokenReady t0 = false) :
    ∀ xs ys, lookupEval l m (xs ++ t0 :: ys) = lookupEval l m (xs ++ ys) := by
  have h2 : (t0.phase == SPIAccessTokenPhaseReady) = false := h
  intro xs ys
  induction xs with
  | nil => simp [lookupEval, h2]
  | cons x xs ih => simp only [List.cons_append, lookupEval, List.append_eq, ih]

/-- Listing tokens of a store whose token list has one extra element `t0`:
the candidate list gains `t0` at its position exactly when `t0` passes the
namespace and label selectors. -/
theorem listTokens_insert (ts1 ts2 : List SPIAccessToken) (t0 : SPIAccessToken)
    (rss : List RemoteSecret) (ss : List Secret) (ns : String)
    (sel : List (String × String)) :
    listTokens ⟨ts1 ++ t0 :: ts2, rss, ss⟩ ns sel =
      (if (t0.ns == ns &&
            sel.all (fun kv => mapHas t0.labels kv.1 && mapGetD t0.labels kv.1 == kv.2)) then
        listTokens ⟨ts1, rss, ss⟩ ns sel ++ t0 :: listTokens ⟨ts2, rss, ss⟩ ns sel
      else
        listTokens ⟨ts1, rss, ss⟩ ns sel ++ listTokens ⟨ts2, rss, ss⟩ ns sel) := by
  simp only [listTokens, List.filter_append, List.filter_cons]
  cases hc : (t0.ns == ns &&
      sel.all (fun kv => mapHas t0.labels kv.1 && mapGetD t0.labels kv.1 == kv.2)) with
  | false => simp [hc]
  | true => simp [hc]

/-- Listing tokens distributes over concatenation of the stored token list. -/
theorem listTokens_append (ts1 ts2 : List SPIAccessToken)
    (rss : List RemoteSecret) (ss : List Secret) (ns : String)
    (sel : List (String × String)) :
    listTokens ⟨ts1 ++ ts2, rss, ss⟩ ns sel =
      listTokens ⟨ts1, rss, ss⟩ ns sel ++ listTokens ⟨ts2, rss, ss⟩ ns sel := by
  simp [listTokens, List.filter_append]

/-- A `filterMap` keeps one output per input on which the function fires. -/
theorem length_filterMap_eq_length_filter {α β : Type} (g : α → Option β) (cs : List α) :
    (cs.filterMap g).length = (cs.filter (fun a => (g a).isSome)).length := by
  induction cs with
  | nil => rfl
  | cons a rest ih =>
    cases hg : g a <;> simp [List.filterMap_cons, List.filter_cons, hg, ih]

/-- C5: For every matchable and every list of candidate tokens, the result of
`Lookup` never contains a token whose lifecycle phase is not Ready, and a
non-Ready candidate inserted anywhere among the stored tokens changes nothing
about the call's outcome — it is skipped without being counted as an error. -/
theorem lookup_only_ready_tokens :
    (∀ (l : GenericLookup) (cl : Client) (m : Matchable) (res : List SPIAccessToken),
      l.Lookup cl m = .ok res → ∀ t ∈ res, t.phase = SPIAccessTokenPhaseReady) ∧
    (∀ (l : GenericLookup) (m : Matchable) (ts1 ts2 : List SPIAccessToken)
      (t0 : SPIAccessToken) (rss : List RemoteSecret) (ss : List Secret),
      t0.phase ≠ SPIAccessTokenPhaseReady →
      l.Lookup ⟨ts1 ++ t0 :: ts2, rss, ss⟩ m = l.Lookup ⟨ts1 ++ ts2, rss, ss⟩ m) := by
  constructor
  · intro l cl m res hres t ht
    cases hp : l.repoUrlParser m.repoUrl with
    | error e => simp [GenericLookup.Lookup, hp] at hres
    | ok u =>
      simp only [GenericLookup.Lookup, hp, lookupEval_eq] at hres
      split at hres
      · cases hres with
        | refl =>
          have hmem := List.of_mem_filter ht
          have hready : tokenReady t = true := by
            cases hr : tokenReady t
            · rw [hr] at hmem; simp at hmem
            · rfl
          simpa [tokenReady] using hready
      · cases hres
  · intro l m ts1 ts2 t0 rss ss hph
    have hready : tokenReady t0 = false := by
      simp [tokenReady, hph]
    cases hp : l.repoUrlParser m.repoUrl with
    | error e => simp [GenericLookup.Lookup, hp]
    | ok u =>
      have key : lookupEval l m (listTokens ⟨ts1 ++ t0 :: ts2, rss, ss⟩ m.objNamespace
            [(ServiceProviderTypeLabel, l.serviceProviderType),
             (ServiceProviderHostLabel, u.host)]) =
          lookupEval l m (listTokens ⟨ts1 ++ ts2, rss, ss⟩ m.objNamespace
            [(ServiceProviderTypeLabel, l.serviceProviderType),
             (ServiceProviderHostLabel, u.host)]) := by
        rw [listTokens_insert, listTokens_append]
        cases hc : (t0.ns == m.objNamespace &&
            [(ServiceProviderTypeLabel, l.serviceProviderType),
             (ServiceProviderHostLabel, u.host)].all
              (fun kv => mapHas t0.labels kv.1 && mapGetD t0.labels kv.1 == kv.2)) with
        | false => simp [hc]
        | true => simp only [hc, if_true, lookupEval_skip_not_ready l m t0 hready]
      simp only [GenericLookup.Lookup, hp]
      rw [key]

/-- Witness for C5 at a concrete environment: the result of a successful
lookup containing a matched token certifies its phase is Ready. -/
theorem lookup_only_ready_tokens_witness :
    ({ name := "t", ns := "ns",
       labels := [(ServiceProviderTypeLabel, "GitLab"), (ServiceProviderHostLabel, "gitlab.com")],
       phase := "Ready" } : SPIAccessToken).phase = SPIAccessTokenPhaseReady := by
  apply lookup_only_ready_tokens.1
    { serviceProviderType := "GitLab"
      tokenFilter := fun _ _ => .ok true
      metadataCacheEnsure := fun _ => none
      tokenStorageGet := fun _ => .ok (some ⟨"u", "tok"⟩)
      remoteSecretFilter := none
      repoUrlParser := fun _ => .ok ⟨"gitlab.com", "/org/repo"⟩ }
    ⟨[{ name := "t", ns := "ns",
        labels := [(ServiceProviderTypeLabel, "GitLab"), (ServiceProviderHostLabel, "gitlab.com")],
        phase := "Ready" }], [], []⟩
    ⟨"gitlab.com/org/repo", "ns"⟩
    [{ name := "t", ns := "ns",
       labels := [(ServiceProviderTypeLabel, "GitLab"), (ServiceProviderHostLabel, "gitlab.com")],
       phase := "Ready" }]
  · rfl
  · simp

/-! ### Shared concrete examples used by witnesses -/

/-- A ready GitLab token labeled for host gitlab.com in namespace ns. -/
def exToken : SPIAccessToken :=
  ⟨"t", "ns",
   [(ServiceProviderTypeLabel, "GitLab"), (ServiceProviderHostLabel, "gitlab.com")],
   "Ready"⟩

/-- A matchable requesting gitlab.com/org/repo from namespace ns. -/
def exMatchable : Matchable := ⟨"gitlab.com/org/repo", "ns"⟩

/-- A parser fixing the URL of the example matchable. -/
def exParser : String → Except GoError URL := fun _ => .ok ⟨"gitlab.com", "/org/repo"⟩

/-- A lookup environment whose collaborators all succeed. -/
def exLookup : GenericLookup :=
  { serviceProviderType := "GitLab"
    tokenFilter := fun _ _ => .ok true
    metadataCacheEnsure := fun _ => none
    tokenStorageGet := fun _ => .ok (some ⟨"alice", "tok"⟩)
    remoteSecretFilter := none
    repoUrlParser := exParser }

/-- The same environment with a failing token filter. -/
def exLookupFilterFails : GenericLookup :=
  { exLookup with tokenFilter := fun _ _ => .error (.msg "boom") }

/-- An object store holding just the example token. -/
def exClient : Client := ⟨[exToken], [], []⟩

/-- A remote secret for gitlab.com scoped to org/repo with one local target. -/
def exRemoteSecret : RemoteSecret :=
  ⟨"rs", "ns", [(RSServiceProviderHostLabel, "gitlab.com")],
   [(RSServiceProviderRepositoryKey, "org/repo,org/other")],
   [⟨"", "", "ns", "rs-secret"⟩]⟩

/-- The secret delivered by the example remote secret's local target. -/
def exSecret : Secret :=
  ⟨"rs-secret", "ns", [("username", "bob"), ("password", "pw")]⟩

/-! ### C2 -/

/-- C2: For every set of ready candidates evaluated by `Lookup`, if at least
one per-candidate evaluation fails, the whole call fails with an aggregated
error holding exactly one error per failing ready candidate (none dropped),
and no partial result list is returned. -/
theorem lookup_aggregates_all_failures
    (l : GenericLookup) (cl : Client) (m : Matchable) (u : URL)
    (hparse : l.repoUrlParser m.repoUrl = .ok u)
    (hfail : lookupErrs l cl m u ≠ []) :
    l.Lookup cl m = .error (.wrap "errors while examining the potential matches"
        (.aggregate (lookupErrs l cl m u)))
    ∧ (lookupErrs l cl m u).length =
        ((lookupCandidates l cl m u).filter
          (fun t => tokenReady t && (candidateErr l m t).isSome)).length := by
  refine ⟨lookup_error_of_parse l cl m u hparse hfail, ?_⟩
  rw [lookupErrs, length_filterMap_eq_length_filter]
  congr 1
  apply List.filter_congr
  intro t _
  cases h : tokenReady t <;> simp [h]

/-- Witness for C2: in the concrete environment whose token filter fails, the
lookup call fails with the aggregate of the single failure. -/
theorem lookup_aggregates_all_failures_witness :
    exLookupFilterFails.Lookup exClient exMatchable =
      .error (.wrap "errors while examining the potential matches"
        (.aggregate (lookupErrs exLookupFilterFails exClient exMatchable ⟨"gitlab.com", "/org/repo"⟩)))
    ∧ (lookupErrs exLookupFilterFails exClient exMatchable ⟨"gitlab.com", "/org/repo"⟩).length =
        ((lookupCandidates exLookupFilterFails exClient exMatchable ⟨"gitlab.com", "/org/repo"⟩).filter
          (fun t => tokenReady t &&
            (candidateErr exLookupFilterFails exMatchable t).isSome)).length := by
  apply lookup_aggregates_all_failures
  · rfl
  · have h : lookupErrs exLookupFilterFails exClient exMatchable ⟨"gitlab.com", "/org/repo"⟩ =
        [.msg "boom"] := rfl
    rw [h]
    exact List.cons_ne_nil _ _

/-! ### C1 -/

/-- C1: `LookupCredentials` consults remote secrets only when `Lookup`
returns zero matching tokens: whenever the token lookup's outcome is anything
other than an empty match list, the result is unchanged under arbitrary
replacement of the stored remote secrets and secrets. And when zero tokens
match while the remote-secret sub-lookup resolves to no secret — in
particular when zero remote secrets match, since an empty match list resolves
to no secret — the call returns an absent result with no error. -/
theorem lookupCredentials_remote_fallback :
    (∀ (l : GenericLookup) (cl : Client) (m : Matchable)
      (rss : List RemoteSecret) (ss : List Secret),
      l.Lookup cl m ≠ .ok [] →
      l.LookupCredentials ⟨cl.tokens, rss, ss⟩ m = l.LookupCredentials cl m) ∧
    (∀ (l : GenericLookup) (cl : Client) (m : Matchable) (rss : List RemoteSecret),
      l.Lookup cl m = .ok [] →
      l.lookupRemoteSecrets cl m = .ok rss →
      l.lookupRemoteSecretSecret cl m rss = .ok none →
      l.LookupCredentials cl m = .ok none) ∧
    (∀ (l : GenericLookup) (cl : Client) (m : Matchable),
      l.lookupRemoteSecretSecret cl m [] = .ok none) := by
  refine ⟨?_, ?_, ?_⟩
  · intro l cl m rss ss hne
    have hsame : l.Lookup ⟨cl.tokens, rss, ss⟩ m = l.Lookup cl m := rfl
    cases hl : l.Lookup cl m with
    | error e => simp [GenericLookup.LookupCredentials, hsame, hl]
    | ok tokens =>
      cases tokens with
      | nil => exact absurd hl hne
      | cons t ts => simp [GenericLookup.LookupCredentials, hsame, hl]
  · intro l cl m rss h1 h2 h3
    simp [GenericLookup.LookupCredentials, h1, h2, h3]
  · intro l cl m
    rfl

/-- Witness for C1: with no stored tokens and no stored remote secrets the
credential lookup returns an absent result with no error. -/
theorem lookupCredentials_remote_fallback_witness :
    exLookup.LookupCredentials ⟨[], [], []⟩ exMatchable = .ok none :=
  lookupCredentials_remote_fallback.2.1 exLookup ⟨[], [], []⟩ exMatchable [] rfl rfl rfl

/-! ### C6 -/

/-- C6: When `Lookup` returns at least one matching token, `LookupCredentials`
fetches token data for the first token of the result list; storage reporting
no data without error yields the distinct token-data-not-found error, which
differs from the absent no-match result; data present yields credentials
built from the data's username and access token; a storage error is wrapped. -/
theorem lookupCredentials_first_token
    (l : GenericLookup) (cl : Client) (m : Matchable)
    (t : SPIAccessToken) (ts : List SPIAccessToken)
    (hl : l.Lookup cl m = .ok (t :: ts)) :
    (l.tokenStorageGet t = .ok none →
      l.LookupCredentials cl m = .error accessTokenNotFoundError) ∧
    (∀ td : TokenData, l.tokenStorageGet t = .ok (some td) →
      l.LookupCredentials cl m = .ok (some ⟨td.username, td.accessToken⟩)) ∧
    (∀ e : GoError, l.tokenStorageGet t = .error e →
      l.LookupCredentials cl m = .error (.wrap "failed to get token data" e)) ∧
    ((.error accessTokenNotFoundError : Except GoError (Option Credentials)) ≠ .ok none) := by
  refine ⟨?_, ?_, ?_, ?_⟩
  · intro hst; simp [GenericLookup.LookupCredentials, hl, hst]
  · intro td hst; simp [GenericLookup.LookupCredentials, hl, hst]
  · intro e hst; simp [GenericLookup.LookupCredentials, hl, hst]
  · intro h; cases h

/-- Witness for C6: in the concrete environment the stored token matches and
its token data yields the credentials. -/
theorem lookupCredentials_first_token_witness :
    exLookup.LookupCredentials exClient exMatchable = .ok (some ⟨"alice", "tok"⟩) :=
  (lookupCredentials_first_token exLookup exClient exMatchable exToken [] rfl).2.1
    ⟨"alice", "tok"⟩ rfl

/-! ### C10 -/

/-- C10: When no token matches and the remote-secret path resolves a target
Secret, `LookupCredentials` builds credentials from that Secret's data under
the basic-auth username/password keys; an absent key reads as the empty
string (Go map zero value), so missing basic-auth keys are not detected — the
call still succeeds with non-nil credentials and nil error. -/
theorem lookupCredentials_remoteSecret_basicAuth :
    (∀ (l : GenericLookup) (cl : Client) (m : Matchable)
       (rss : List RemoteSecret) (s : Secret),
      l.Lookup cl m = .ok [] →
      l.lookupRemoteSecrets cl m = .ok rss →
      l.lookupRemoteSecretSecret cl m rss = .ok (some s) →
      l.LookupCredentials cl m =
        .ok (some ⟨mapGetD s.data BasicAuthUsernameKey, mapGetD s.data BasicAuthPasswordKey⟩)) ∧
    (∀ (d : List (String × String)) (k : String),
      d.find? (fun kv => kv.1 == k) = none → mapGetD d k = "") := by
  constructor
  · intro l cl m rss s h1 h2 h3
    simp [GenericLookup.LookupCredentials, h1, h2, h3]
  · intro d k h
    simp [mapGetD, h]

/-- Witness for C10: with no tokens, the example remote secret resolves to its
delivered secret and the credentials are its basic-auth fields. -/
theorem lookupCredentials_remoteSecret_basicAuth_witness :
    exLookup.LookupCredentials ⟨[], [exRemoteSecret], [exSecret]⟩ exMatchable =
      .ok (some ⟨"bob", "pw"⟩) :=
  lookupCredentials_remoteSecret_basicAuth.1 exLookup ⟨[], [exRemoteSecret], [exSecret]⟩
    exMatchable [exRemoteSecret] exSecret rfl rfl rfl

/-! ### C3 -/

/-- C3: The selection loop picks exactly the first remote secret whose scope
annotation contains the request's path (the default — the first filtered
match — only when none does); a uniquely scope-matching secret is chosen
wherever it sits in the list; and `lookupRemoteSecretSecret` resolves
precisely the secret so chosen. -/
theorem remoteSecret_scope_preference :
    (∀ (path : String) (dflt : RemoteSecret) (rss : List RemoteSecret),
      chooseMatchingRemoteSecret path dflt rss =
        ((rss.find? (fun rs => remoteSecretScopeMatches rs path)).getD dflt)) ∧
    (∀ (path : String) (dflt rsS : RemoteSecret) (rss : List RemoteSecret),
      rsS ∈ rss → remoteSecretScopeMatches rsS path = true →
      (∀ rs ∈ rss, remoteSecretScopeMatches rs path = true → rs = rsS) →
      chooseMatchingRemoteSecret path dflt rss = rsS) ∧
    (∀ (l : GenericLookup) (cl : Client) (m : Matchable) (first : RemoteSecret)
       (rest : List RemoteSecret) (u : URL),
      l.repoUrlParser m.repoUrl = .ok u →
      l.lookupRemoteSecretSecret cl m (first :: rest) =
        l.lookupRemoteSecretSecret cl m
          [chooseMatchingRemoteSecret u.path first (first :: rest)]) := by
  have hchoose : ∀ (path : String) (dflt : RemoteSecret) (rss : List RemoteSecret),
      chooseMatchingRemoteSecret path dflt rss =
        ((rss.find? (fun rs => remoteSecretScopeMatches rs path)).getD dflt) := by
    intro path dflt rss
    induction rss with
    | nil => rfl
    | cons rs rest ih =>
      cases h : remoteSecretScopeMatches rs path <;>
        simp [chooseMatchingRemoteSecret, List.find?_cons, h, ih]
  refine ⟨hchoose, ?_, ?_⟩
  · intro path dflt rsS rss hmem hmatch huniq
    induction rss with
    | nil => cases hmem
    | cons rs rest ih =>
      cases h : remoteSecretScopeMatches rs path with
      | true =>
        have heq : rs = rsS := huniq rs (List.mem_cons_self rs rest) h
        subst heq
        simp [chooseMatchingRemoteSecret, h]
      | false =>
        have hmem2 : rsS ∈ rest := by
          cases List.mem_cons.mp hmem with
          | inl heq => rw [heq.symm, hmatch] at h; cases h
          | inr h2 => exact h2
        simp only [chooseMatchingRemoteSecret, h]
        simp only [Bool.false_eq_true, if_false]
        exact ih hmem2 (fun rs2 hm2 hmt2 => huniq rs2 (List.mem_cons_of_mem rs hm2) hmt2)
  · intro l cl m first rest u hp
    have hcc : ∀ (p : String) (x : RemoteSecret), chooseMatchingRemoteSecret p x [x] = x := by
      intro p x
      cases h : remoteSecretScopeMatches x p <;> simp [chooseMatchingRemoteSecret, h]
    simp only [GenericLookup.lookupRemoteSecretSecret, hp, hcc]

/-- Witness for C3: in the concrete environment the chosen remote secret of a
one-element match list drives the resolution. -/
theorem remoteSecret_scope_preference_witness :
    exLookup.lookupRemoteSecretSecret ⟨[], [exRemoteSecret], [exSecret]⟩ exMatchable
        [exRemoteSecret] =
      exLookup.lookupRemoteSecretSecret ⟨[], [exRemoteSecret], [exSecret]⟩ exMatchable
        [chooseMatchingRemoteSecret "/org/repo" exRemoteSecret [exRemoteSecret]] :=
  remoteSecret_scope_preference.2.2 exLookup ⟨[], [exRemoteSecret], [exSecret]⟩
    exMatchable exRemoteSecret [] ⟨"gitlab.com", "/org/repo"⟩ rfl

/-! ### C4 -/

/-- The per-target condition of `getLocalNamespaceTargetIndex`: empty API URL,
empty error, namespace equal to the caller's. -/
def isLocalNamespaceTarget (t : TargetStatus) (ns : String) : Bool :=
  t.apiUrl == "" && t.error == "" && t.ns == ns

/-- `getLocalNamespaceTargetIndex` either reports `-1` with no local target in
the list, or reports the index of the first local target. -/
theorem getLocalNamespaceTargetIndex_spec (ts : List TargetStatus) (ns : String) :
    (getLocalNamespaceTargetIndex ts ns = -1 ∧
      ∀ t ∈ ts, isLocalNamespaceTarget t ns = false) ∨
    (∃ i : ℕ, getLocalNamespaceTargetIndex ts ns = (i : Int) ∧ i < ts.length ∧
      isLocalNamespaceTarget (ts.getD i default) ns = true ∧
      ∀ j : ℕ, j < i → isLocalNamespaceTarget (ts.getD j default) ns = false) := by
  induction ts with
  | nil => left; exact ⟨rfl, by simp⟩
  | cons t rest ih =>
    cases hl : (t.apiUrl == "" && t.error == "" && t.ns == ns) with
    | true =>
      right
      refine ⟨0, ?_, by simp, ?_, ?_⟩
      · simp [getLocalNamespaceTargetIndex, hl]
      · simpa [isLocalNamespaceTarget] using hl
      · intro j hj; omega
    | false =>
      cases ih with
      | inl h =>
        left
        constructor
        · simp [getLocalNamespaceTargetIndex, hl, h.1]
        · intro x hx
          cases List.mem_cons.mp hx with
          | inl heq => rw [heq]; simpa [isLocalNamespaceTarget] using hl
          | inr h2 => exact h.2 x h2
      | inr h =>
        obtain ⟨i, h1, h2, h3, h4⟩ := h
        right
        refine ⟨i + 1, ?_, by simpa using h2, by simpa using h3, ?_⟩
        · have hne : ((i : Int) == -1) = false := by
            rw [beq_eq_false_iff_ne]
            omega
          simp [getLocalNamespaceTargetIndex, hl, h1, hne]
        · intro j hj
          cases j with
          | zero => simpa [isLocalNamespaceTarget] using hl
          | succ j2 =>
            have : j2 < i := by omega
            simpa using h4 j2 this

/-- C4: When the chosen remote secret has no target with empty API URL, empty
error and the caller's namespace, `lookupRemoteSecretSecret` fails with the
distinct missing-target error — an error, not an absent result; when the
index is non-negative it designates a target with exactly those fields. -/
theorem remoteSecret_missing_local_target :
    (∀ (l : GenericLookup) (cl : Client) (m : Matchable) (first : RemoteSecret)
       (rest : List RemoteSecret) (u : URL),
      l.repoUrlParser m.repoUrl = .ok u →
      (∀ t ∈ (chooseMatchingRemoteSecret u.path first (first :: rest)).targets,
        isLocalNamespaceTarget t m.objNamespace = false) →
      l.lookupRemoteSecretSecret cl m (first :: rest) = .error missingTargetError) ∧
    (∀ (ts : List TargetStatus) (ns : String) (i : ℕ),
      getLocalNamespaceTargetIndex ts ns = (i : Int) →
      i < ts.length ∧ isLocalNamespaceTarget (ts.getD i default) ns = true) ∧
    ((.error missingTargetError : Except GoError (Option Secret)) ≠ .ok none) := by
  refine ⟨?_, ?_, ?_⟩
  · intro l cl m first rest u hp hall
    have hspec := getLocalNamespaceTargetIndex_spec
      (chooseMatchingRemoteSecret u.path first (first :: rest)).targets m.objNamespace
    cases hspec with
    | inl h =>
      simp only [GenericLookup.lookupRemoteSecretSecret, hp, h.1]
      norm_num
    | inr h =>
      obtain ⟨i, _, h2, h3, _⟩ := h
      exfalso
      have hmem : (chooseMatchingRemoteSecret u.path first (first :: rest)).targets.getD i default
          ∈ (chooseMatchingRemoteSecret u.path first (first :: rest)).targets := by
        rw [List.getD_eq_getElem _ _ h2]
        exact List.getElem_mem h2
      have := hall _ hmem
      rw [h3] at this
      cases this
  · intro ts ns i hi
    cases getLocalNamespaceTargetIndex_spec ts ns with
    | inl h => rw [h.1] at hi; omega
    | inr h =>
      obtain ⟨i2, h1, h2, h3, _⟩ := h
      have : i = i2 := by rw [h1] at hi; omega
      rw [this]
      exact ⟨h2, h3⟩
  · intro h; cases h

/-- Witness for C4: a remote secret whose only target has a remote API URL
resolves to the missing-target error. -/
theorem remoteSecret_missing_local_target_witness :
    exLookup.lookupRemoteSecretSecret ⟨[], [], []⟩ exMatchable
        [⟨"rs2", "ns", [(RSServiceProviderHostLabel, "gitlab.com")], [],
          [⟨"https://other-cluster", "", "ns", "s"⟩]⟩] =
      .error missingTargetError :=
  remoteSecret_missing_local_target.1 exLookup ⟨[], [], []⟩ exMatchable
    ⟨"rs2", "ns", [(RSServiceProviderHostLabel, "gitlab.com")], [],
      [⟨"https://other-cluster", "", "ns", "s"⟩]⟩ [] ⟨"gitlab.com", "/org/repo"⟩
    rfl (by decide)

/-! ### C7 -/

/-- C7: For every repository-URL string without the substring `://`, the
schemaless parser behaves exactly as parsing the string with `https://`
prepended manually — in particular it yields the same host and path — and on
malformed input it fails with an error wrapping the underlying parse error. -/
theorem repoUrl_schemaless_parse (parse : String → Except GoError URL) (s : String) :
    (stringsContains s "://" = false →
      RepoUrlFromSchemalessString parse s = RepoUrlFromString parse ("https://" ++ s)) ∧
    (∀ e : GoError,
      parse (if stringsContains s "://" then s else "https://" ++ s) = .error e →
      RepoUrlFromSchemalessString parse s = .error (.wrap "invalid url" e)) := by
  constructor
  · intro h
    simp [RepoUrlFromSchemalessString, h]
  · intro e he
    cases h : stringsContains s "://" with
    | false =>
      rw [h] at he
      simp only [Bool.false_eq_true, if_false] at he
      simp [RepoUrlFromSchemalessString, RepoUrlFromString, h, he]
    | true =>
      rw [h] at he
      simp only [if_true] at he
      simp [RepoUrlFromSchemalessString, RepoUrlFromString, h, he]

/-- Witness for C7: a schemeless concrete URL string parses exactly as its
`https://`-prepended form. -/
theorem repoUrl_schemaless_parse_witness :
    RepoUrlFromSchemalessString exParser "gitlab.com/org/repo" =
      RepoUrlFromString exParser ("https://" ++ "gitlab.com/org/repo") :=
  (repoUrl_schemaless_parse exParser "gitlab.com/org/repo").1 (by decide)

/-! ### C8 -/

/-- C8: The public probe is an unauthenticated GET of the repo URL: a 200
response terminates the check as Accessible with Public accessibility,
without the private check; any non-200 response (404 or an unexpected code,
which is only logged) surfaces no error and continues with the private
path. -/
theorem checkRepositoryAccess_public_probe
    (env : GitlabCheckEnv) (m : Matchable) (r : HTTPResponse)
    (hreq : env.newRequestErr = none) (hdo : env.httpDo = .ok r) :
    (r.statusCode = 200 →
      checkRepositoryAccess env m =
        .ok { accessible := true, accessibility := SPIAccessCheckAccessibilityPublic }) ∧
    (r.statusCode ≠ 200 →
      checkRepositoryAccess env m = .ok (checkPrivateRepoAccess env m)) := by
  constructor
  · intro h200
    simp [checkRepositoryAccess, checkPublicRepoAccess, hreq, hdo, h200]
  · intro hne
    simp [checkRepositoryAccess, checkPublicRepoAccess, hreq, hdo, beq_iff_eq, hne]

/-- Witness for C8: a repo answering 200 to the unauthenticated GET is
classified public and accessible. -/
theorem checkRepositoryAccess_public_probe_witness :
    checkRepositoryAccess
        { newRequestErr := none, httpDo := .ok ⟨200⟩,
          parseOwnerAndProject := .ok ("org", "repo"), buildClientErr := none,
          getProject := ⟨none, some ⟨200⟩, "public"⟩,
          lookup := exLookup, cl := exClient }
        exMatchable =
      .ok { accessible := true, accessibility := SPIAccessCheckAccessibilityPublic } :=
  (checkRepositoryAccess_public_probe
    { newRequestErr := none, httpDo := .ok ⟨200⟩,
      parseOwnerAndProject := .ok ("org", "repo"), buildClientErr := none,
      getProject := ⟨none, some ⟨200⟩, "public"⟩,
      lookup := exLookup, cl := exClient }
    exMatchable ⟨200⟩ rfl rfl).1 rfl

/-! ### C9 -/

/-- The `Required` loop collects exactly one error per offending permission,
in order. -/
theorem foldl_appendPermissionError (xs : List Permission) :
    ∀ init : List GoError,
      xs.foldl appendPermissionError init = init ++ xs.filterMap gitlabPermissionError := by
  induction xs with
  | nil => intro init; simp
  | cons x rest ih =>
    intro init
    cases hf : gitlabPermissionError x <;>
      simp [List.foldl_cons, appendPermissionError, hf, ih, List.filterMap_cons]

/-- The `AdditionalScopes` loop collects exactly one unsupported-scope error
per rejected scope, in order. -/
theorem foldl_appendScopeError (isValidScope : String → Bool) (xs : List String) :
    ∀ init : List GoError,
      xs.foldl (appendScopeError isValidScope) init =
        init ++ (xs.filter (fun s => !(isValidScope s))).map
          (fun s => .wrapDetail unsupportedScopeError s) := by
  induction xs with
  | nil => intro init; simp
  | cons x rest ih =>
    intro init
    cases hv : isValidScope x <;>
      simp [List.foldl_cons, appendScopeError, hv, ih, List.filter_cons]

/-- C9: GitLab scope validation reports exactly one unsupported-area error per
required permission whose area is outside the fixed table, one distinct
unsupported-permission error per write permission on the user area, and one
unsupported-scope error per unrecognized additional scope; areas in the table
and recognized scopes contribute nothing. -/
theorem gitlabValidate_errors (isValidScope : String → Bool) (perms : Permissions) :
    (gitlabValidate isValidScope perms).scopeValidation =
      perms.required.filterMap gitlabPermissionError ++
        (perms.additionalScopes.filter (fun s => !(isValidScope s))).map
          (fun s => .wrapDetail unsupportedScopeError s) ∧
    (∀ p : Permission,
      p.area ≠ PermissionAreaRepository → p.area ≠ PermissionAreaRepositoryMetadata →
      p.area ≠ PermissionAreaRegistry → p.area ≠ PermissionAreaUser →
      gitlabPermissionError p = some (.wrapDetail unsupportedAreaError p.area)) ∧
    (∀ p : Permission, p.area = PermissionAreaUser → permissionTypeIsWrite p.type = true →
      gitlabPermissionError p = some unsupportedUserWritePermissionError) ∧
    (∀ p : Permission,
      (p.area = PermissionAreaRepository ∨ p.area = PermissionAreaRepositoryMetadata ∨
        p.area = PermissionAreaRegistry) →
      gitlabPermissionError p = none) := by
  refine ⟨?_, ?_, ?_, ?_⟩
  · simp only [gitlabValidate]
    rw [foldl_appendPermissionError, foldl_appendScopeError]
    simp
  · intro p h1 h2 h3 h4
    simp [gitlabPermissionError, beq_iff_eq, h1, h2, h3, h4]
  · intro p h hw
    simp [gitlabPermissionError, h, hw,
      show (PermissionAreaUser == PermissionAreaRepository) = false from rfl,
      show (PermissionAreaUser == PermissionAreaRepositoryMetadata) = false from rfl,
      show (PermissionAreaUser == PermissionAreaRegistry) = false from rfl,
      show (PermissionAreaUser == PermissionAreaUser) = true from rfl]

  · intro p h
    rcases h with h | h | h <;> simp [gitlabPermissionError, beq_iff_eq, h]

/-- Witness for C9: the error-list characterization at a concrete validation
request, plus the unknown-area and user-write facts at concrete permissions. -/
theorem gitlabValidate_errors_witness :
    ((gitlabValidate (fun s => s == "read_user")
        ⟨[⟨"w", "user"⟩, ⟨"r", "webhooks"⟩], ["read_user", "nope"]⟩).scopeValidation =
      ([⟨"w", "user"⟩, ⟨"r", "webhooks"⟩] : List Permission).filterMap gitlabPermissionError ++
        ((["read_user", "nope"] : List String).filter (fun s => !(s == "read_user"))).map
          (fun s => .wrapDetail unsupportedScopeError s)) ∧
    gitlabPermissionError ⟨"r", "webhooks"⟩ =
      some (.wrapDetail unsupportedAreaError "webhooks") ∧
    gitlabPermissionError ⟨"w", "user"⟩ = some unsupportedUserWritePermissionError :=
  ⟨(gitlabValidate_errors (fun s => s == "read_user")
      ⟨[⟨"w", "user"⟩, ⟨"r", "webhooks"⟩], ["read_user", "nope"]⟩).1,
   (gitlabValidate_errors (fun _ => true) ⟨[], []⟩).2.1 ⟨"r", "webhooks"⟩
     (by decide) (by decide) (by decide) (by decide),
   (gitlabValidate_errors (fun _ => true) ⟨[], []⟩).2.2.1 ⟨"w", "user"⟩ rfl rfl⟩

end SPI
